import Mathlib

/-!
Verification of the chat-adapter core of the `dict-be` repository.

The repository normalizes three chat-completion wire protocols (OpenAI-style,
Anthropic-style, Gemini-style) behind one provider-agnostic client.  The
definitions below are a shallow embedding of the pure protocol logic of
`internal/llm/openai.go`, `internal/llm/gemini.go` and the Anthropic adapter
source file: request payload construction, endpoint construction, blocking
response decoding, and the line-oriented streaming decode loop.  HTTP
transport and JSON (un)marshalling are abstracted: a blocking response body
is a decoded value (`Option` models decode failure), and the stream decoder
takes the scanned lines together with a decode oracle
`String → Option Chunk` standing for `json.Unmarshal` on one chunk payload.
-/

/-- Common-model message (`llm.go`: `Message`). -/
structure Message where
  role : String
  content : String
deriving DecidableEq, Repr

/-- Common-model request (`llm.go`: `ChatRequest`). -/
structure ChatRequest where
  model : String
  messages : List Message
deriving DecidableEq, Repr

/-- Common-model response (`llm.go`: `ChatResponse`). -/
structure ChatResponse where
  content : String
  model : String
  finishReason : String
deriving DecidableEq, Repr

/-! ### Models of the Go `strings` primitives used by the adapters

These are executable character-list implementations of `strings.TrimSpace`
(ASCII whitespace), `strings.HasPrefix`, `strings.TrimPrefix`,
`strings.HasSuffix`, `strings.TrimSuffix` and `strings.TrimRight` with a
`"/"` cut set, written over `String.data` so that every definition reduces
by structural recursion. -/

/-- Whitespace test of `strings.TrimSpace` (ASCII fast path of
`unicode.IsSpace`). -/
def goIsSpace (c : Char) : Bool :=
  c == ' ' || c == '\t' || c == '\n' || c == '\r' || c == '\x0b' || c == '\x0c'

/-- Model of `strings.TrimSpace`. -/
def goTrimSpace (s : String) : String :=
  ⟨((s.data.dropWhile goIsSpace).reverse.dropWhile goIsSpace).reverse⟩

/-- Model of `strings.HasPrefix`. -/
def goHasPre (s pre : String) : Bool := pre.data.isPrefixOf s.data

/-- Model of `strings.HasSuffix`. -/
def goHasSuffix (s suf : String) : Bool := suf.data.isSuffixOf s.data

/-- Model of `strings.TrimPrefix s pre` under the knowledge that `pre` is a
prefix: the first `n` characters are dropped. -/
def goDropN (s : String) (n : Nat) : String := ⟨s.data.drop n⟩

/-- Model of `strings.TrimRight s "/"`: drops the trailing run of slashes. -/
def goTrimRightSlash (s : String) : String :=
  ⟨(s.data.reverse.dropWhile (· == '/')).reverse⟩

/-- Model of `strings.TrimSuffix s "/"`: drops one trailing slash if present. -/
def goTrimSuffixSlash (s : String) : String :=
  if goHasSuffix s "/" then ⟨s.data.dropLast⟩ else s

/-- Per-call model resolution (`resolveModel` in all three adapters): a
whitespace-blank override keeps the client's default model. -/
def resolveModel (defaultModel override : String) : String :=
  if goTrimSpace override = "" then defaultModel else override

/-! ### OpenAI-style adapter DTOs (openai.go) -/

/-- Error object of the OpenAI-style response (`openAIChatResponse.Error`). -/
structure openAIError where
  message : String
  type : String
deriving DecidableEq, Repr

/-- One element of `openAIChatResponse.Choices`. -/
structure openAIChoice where
  message : Message
  delta : Message
  finishReason : String
deriving DecidableEq, Repr

/-- Decoded OpenAI-style response body (`openAIChatResponse`). -/
structure openAIChatResponse where
  id : String
  model : String
  choices : List openAIChoice
  error : Option openAIError
deriving DecidableEq, Repr

/-- Wire request of the OpenAI-style adapter (`openAIChatRequest`). -/
structure openAIChatRequest where
  model : String
  messages : List Message
  stream : Bool
deriving DecidableEq, Repr

/-! ### Anthropic-style adapter DTOs (Anthropic adapter source) -/

/-- Error object of the Anthropic-style response (`anthropicError`). -/
structure anthropicError where
  message : String
  type : String
deriving DecidableEq, Repr

/-- One content block of the Anthropic-style response (`anthropicContent`). -/
structure anthropicContent where
  type : String
  text : String
deriving DecidableEq, Repr

/-- Decoded Anthropic-style blocking response body (`anthropicChatResponse`). -/
structure anthropicChatResponse where
  id : String
  model : String
  content : List anthropicContent
  stopReason : String
  error : Option anthropicError
deriving DecidableEq, Repr

/-- Wire request of the Anthropic-style adapter (`anthropicChatRequest`). -/
structure anthropicChatRequest where
  model : String
  messages : List Message
  system : String
  maxTokens : Int
  stream : Bool
deriving DecidableEq, Repr

/-- Streaming event `message` payload (`anthropicEvent`). -/
structure anthropicEvent where
  model : String
deriving DecidableEq, Repr

/-- Streaming event `delta` payload (`anthropicDelta`). -/
structure anthropicDelta where
  text : String
deriving DecidableEq, Repr

/-- Decoded Anthropic-style streaming event (`anthropicStreamEvent`). -/
structure anthropicStreamEvent where
  type : String
  message : Option anthropicEvent
  delta : Option anthropicDelta
  stopReason : String
  error : Option anthropicError
deriving DecidableEq, Repr

/-! ### Gemini-style adapter DTOs (gemini.go) -/

/-- One text part (`geminiPart`). -/
structure geminiPart where
  text : String
deriving DecidableEq, Repr

/-- One content object (`geminiContent`). -/
structure geminiContent where
  role : String
  parts : List geminiPart
deriving DecidableEq, Repr

/-- Top-level system instruction (`geminiSystemInstruction`). -/
structure geminiSystemInstruction where
  parts : List geminiPart
deriving DecidableEq, Repr

/-- One candidate (`geminiCandidate`). -/
structure geminiCandidate where
  content : geminiContent
  finishReason : String
deriving DecidableEq, Repr

/-- Error object (`geminiError`). -/
structure geminiError where
  message : String
  status : String
deriving DecidableEq, Repr

/-- Decoded Gemini-style response body (`geminiGenerateContentResponse`),
also the shape of one streaming chunk. -/
structure geminiGenerateContentResponse where
  candidates : List geminiCandidate
  modelVersion : String
  error : Option geminiError
deriving DecidableEq, Repr

/-- Wire request of the Gemini-style adapter (`geminiGenerateContentRequest`). -/
structure geminiGenerateContentRequest where
  contents : List geminiContent
  systemInstruction : Option geminiSystemInstruction
deriving DecidableEq, Repr

/-! ### Request payload construction -/

/-- OpenAI-style wire payload built by `OpenAIClient.Chat` (openai.go:54-58):
the common message list passes through unchanged. -/
def openAIChatPayload (clientModel : String) (req : ChatRequest) : openAIChatRequest :=
  ⟨resolveModel clientModel req.model, req.messages, false⟩

/-- Anthropic adapter source `splitAnthropicMessages` (lines 234-243): a
leading system message is extracted into a separate system string. -/
def splitAnthropicMessages : List Message → List Message × String
  | [] => ([], "")
  | first :: rest =>
    if first.role = "system" then (rest, first.content)
    else (first :: rest, "")

/-- Anthropic-style wire payload built by `AnthropicClient.Chat` (lines 73-80). -/
def anthropicChatPayload (clientModel : String) (maxTokens : Int) (req : ChatRequest) :
    anthropicChatRequest :=
  let p := splitAnthropicMessages req.messages
  ⟨resolveModel clientModel req.model, p.1, p.2, maxTokens, false⟩

/-- Per-message conversion inside `buildGeminiContents` (gemini.go:260-268):
the `assistant` role is renamed to `model`, the content becomes one text part. -/
def geminiMsgContent (m : Message) : geminiContent :=
  ⟨if m.role = "assistant" then "model" else m.role, [⟨m.content⟩]⟩

/-- `buildGeminiContents` (gemini.go:247-271): a leading system message
becomes a separate system instruction, the rest are converted in order. -/
def buildGeminiContents : List Message → List geminiContent × Option geminiSystemInstruction
  | [] => ([], none)
  | first :: rest =>
    if first.role = "system" then
      (rest.map geminiMsgContent, some ⟨[⟨first.content⟩]⟩)
    else
      ((first :: rest).map geminiMsgContent, none)

/-- Gemini-style wire payload built by `GeminiClient.Chat` (gemini.go:56-61). -/
def geminiChatPayload (req : ChatRequest) : geminiGenerateContentRequest :=
  let p := buildGeminiContents req.messages
  ⟨p.1, p.2⟩

/-! ### Blocking decode pipeline

Each adapter's `do` method checks the HTTP status, decodes the body, and
rejects a body with an explicit error object; `Chat` then post-processes the
decoded value.  The body is modelled post-JSON: `none` is a body that fails
to decode. -/

/-- `readOpenAIError` (openai.go:200-207), applied to a non-2xx body. -/
def readOpenAIError (body : Option openAIChatResponse) (status : Nat) : String :=
  match body with
  | some r =>
    match r.error with
    | some e =>
      if e.message ≠ "" then
        "openai request failed: " ++ e.message ++ " (status " ++ toString status ++ ")"
      else "openai request failed with status " ++ toString status
    | none => "openai request failed with status " ++ toString status
  | none => "openai request failed with status " ++ toString status

/-- `OpenAIClient.do` (openai.go:161-190): status gate, body decode, explicit
provider-error gate.  Transport and marshalling failures are out of scope. -/
def openAI_do (status : Nat) (body : Option openAIChatResponse) :
    Except String openAIChatResponse :=
  if status < 200 ∨ 300 ≤ status then .error (readOpenAIError body status)
  else
    match body with
    | none => .error "decode response failed"
    | some out =>
      match out.error with
      | some e => .error ("openai error: " ++ e.message)
      | none => .ok out

/-- `OpenAIClient.Chat` decode half (openai.go:59-70): fails on zero choices,
else projects the first choice. -/
def openAIChatRun (status : Nat) (body : Option openAIChatResponse) :
    Except String ChatResponse :=
  match openAI_do status body with
  | .error e => .error e
  | .ok resp =>
    match resp.choices with
    | [] => .error "openai response has no choices"
    | ch :: _ => .ok ⟨ch.message.content, resp.model, ch.finishReason⟩

/-- `readAnthropicError` (Anthropic adapter source lines 225-232). -/
def readAnthropicError (body : Option anthropicChatResponse) (status : Nat) : String :=
  match body with
  | some r =>
    match r.error with
    | some e =>
      if e.message ≠ "" then
        "anthropic request failed: " ++ e.message ++ " (status " ++ toString status ++ ")"
      else "anthropic request failed with status " ++ toString status
    | none => "anthropic request failed with status " ++ toString status
  | none => "anthropic request failed with status " ++ toString status

/-- `AnthropicClient.do` (Anthropic adapter source lines 185-215). -/
def anthropic_do (status : Nat) (body : Option anthropicChatResponse) :
    Except String anthropicChatResponse :=
  if status < 200 ∨ 300 ≤ status then .error (readAnthropicError body status)
  else
    match body with
    | none => .error "decode response failed"
    | some out =>
      match out.error with
      | some e => .error ("anthropic error: " ++ e.message)
      | none => .ok out

/-- `flattenAnthropicContent` (lines 245-257): concatenates the text of the
blocks whose type is `text`, in order. -/
def flattenAnthropicContent (blocks : List anthropicContent) : String :=
  blocks.foldl (fun b blk => if blk.type = "text" then b ++ blk.text else b) ""

/-- `AnthropicClient.Chat` decode half (lines 81-91).  Note: there is no
zero-content-blocks check; an empty block list yields an empty content. -/
def anthropicChatRun (status : Nat) (body : Option anthropicChatResponse) :
    Except String ChatResponse :=
  match anthropic_do status body with
  | .error e => .error e
  | .ok resp => .ok ⟨flattenAnthropicContent resp.content, resp.model, resp.stopReason⟩

/-- `readGeminiError` (gemini.go:238-245). -/
def readGeminiError (body : Option geminiGenerateContentResponse) (status : Nat) : String :=
  match body with
  | some r =>
    match r.error with
    | some e =>
      if e.message ≠ "" then
        "gemini request failed: " ++ e.message ++ " (status " ++ toString status ++ ")"
      else "gemini request failed with status " ++ toString status
    | none => "gemini request failed with status " ++ toString status
  | none => "gemini request failed with status " ++ toString status

/-- `GeminiClient.do` (gemini.go:174-205). -/
def gemini_do (status : Nat) (body : Option geminiGenerateContentResponse) :
    Except String geminiGenerateContentResponse :=
  if status < 200 ∨ 300 ≤ status then .error (readGeminiError body status)
  else
    match body with
    | none => .error "decode response failed"
    | some out =>
      match out.error with
      | some e => .error ("gemini error: " ++ e.message)
      | none => .ok out

/-- `flattenGeminiContent` (gemini.go:273-285): concatenates the non-empty
texts of the parts, in order. -/
def flattenGeminiContent (c : geminiContent) : String :=
  c.parts.foldl (fun b p => if p.text = "" then b else b ++ p.text) ""

/-- `GeminiClient.Chat` decode half (gemini.go:62-75): fails on zero
candidates, else flattens the first candidate's content. -/
def geminiChatRun (status : Nat) (body : Option geminiGenerateContentResponse) :
    Except String ChatResponse :=
  match gemini_do status body with
  | .error e => .error e
  | .ok resp =>
    match resp.candidates with
    | [] => .error "gemini response has no candidates"
    | cand :: _ => .ok ⟨flattenGeminiContent cand.content, resp.modelVersion, cand.finishReason⟩

/-! ### Endpoint construction (OpenAI- and Anthropic-style) -/

/-- `buildChatEndpoint` (openai.go:192-198). -/
def buildChatEndpoint (baseURL : String) : String :=
  let base := goTrimRightSlash baseURL
  if goHasSuffix base "/v1" then base ++ "/chat/completions"
  else base ++ "/v1/chat/completions"

/-- `buildAnthropicEndpoint` (Anthropic adapter source lines 217-223). -/
def buildAnthropicEndpoint (baseURL : String) : String :=
  let base := goTrimRightSlash baseURL
  if goHasSuffix base "/v1" then base ++ "/messages"
  else base ++ "/v1/messages"

/-! ### Gemini-style endpoint construction (gemini.go:207-236)

`buildGeminiEndpoint` parses the base URL with `net/url.Parse`, rewrites the
URL path with `path.Join` (which slash-joins its arguments and then applies
`path.Clean`), and sets the credential as the `key` query parameter.  A
parsed URL is modelled as a record of its scheme, host, path and decoded
query; URL parsing itself is supplied as an oracle `String → Option GoURL`
standing for `url.Parse`, and the result is the final URL value (its
serialization by `URL.String` is not modelled). -/

/-- A parsed `net/url.URL`, restricted to the fields the adapter touches. -/
structure GoURL where
  scheme : String
  host : String
  path : String
  query : List (String × String)
deriving DecidableEq, Repr

/-- Model of `url.Values.Set`: drop previous values for the key, add the
new pair. -/
def querySet (q : List (String × String)) (k v : String) : List (String × String) :=
  (q.filter (fun p => p.1 ≠ k)) ++ [(k, v)]

/-- Lookup of one query parameter (`url.Values.Get`). -/
def queryGet (q : List (String × String)) (k : String) : Option String :=
  (q.find? (fun p => p.1 = k)).map (fun p => p.2)

/-- Splits a character list on `'/'`, keeping empty segments (the segment
view of a path that `path.Clean` processes). -/
def splitSegs : List Char → List (List Char)
  | [] => [[]]
  | c :: rest =>
    match splitSegs rest with
    | [] => [[c]]
    | s :: ss => if c = '/' then [] :: s :: ss else (c :: s) :: ss

/-- Joins segments with `'/'` (inverse of `splitSegs` on slash-free
segments). -/
def joinSegsChars : List (List Char) → List Char
  | [] => []
  | [s] => s
  | s :: rest => s ++ '/' :: joinSegsChars rest

/-- One step of `path.Clean`'s element processing: empty and `.` segments
are dropped, `..` pops the last kept segment (kept verbatim when there is
nothing to pop in a relative path, dropped at the root of a rooted path),
anything else is kept. -/
def cleanStep (rooted : Bool) (stack : List (List Char)) (seg : List Char) :
    List (List Char) :=
  if seg = [] || seg = ['.'] then stack
  else if seg = ['.', '.'] then
    if rooted then stack.dropLast
    else if stack = [] || stack.getLast? = some ['.', '.'] then stack ++ [seg]
    else stack.dropLast
  else stack ++ [seg]

/-- Segment pass of `path.Clean`. -/
def cleanSegs (rooted : Bool) (segs : List (List Char)) : List (List Char) :=
  segs.foldl (cleanStep rooted) []

/-- Model of Go `path.Clean` on the character list of a path. -/
def cleanChars (l : List Char) : List Char :=
  if l = [] then ['.']
  else
    let rooted := l.head? = some '/'
    let segs := cleanSegs rooted (splitSegs l)
    if segs = [] then (if rooted then ['/'] else ['.'])
    else if rooted then '/' :: joinSegsChars segs else joinSegsChars segs

/-- Model of Go `path.Clean`. -/
def pathClean (s : String) : String := ⟨cleanChars s.data⟩

/-- Model of `strings.Join` with separator `"/"`. -/
def joinWithSlash : List String → String
  | [] => ""
  | [s] => s
  | s :: rest => s ++ "/" ++ joinWithSlash rest

/-- Model of Go `path.Join`: slash-join from the first non-empty element,
then clean. -/
def pathJoin : List String → String
  | [] => ""
  | e :: rest => if e = "" then pathJoin rest else pathClean (joinWithSlash (e :: rest))

/-- `buildGeminiEndpoint` (gemini.go:207-236), parameterized by the
`url.Parse` oracle; returns the final URL value. -/
def buildGeminiEndpoint (parse : String → Option GoURL)
    (baseURL model token : String) (stream : Bool) : Except String GoURL :=
  let baseURL := goTrimSpace baseURL
  if baseURL = "" then .error "gemini base url is required"
  else
    let model := goTrimSpace model
    if model = "" then .error "gemini model is required"
    else if goTrimSpace token = "" then .error "gemini token is required"
    else
      match parse baseURL with
      | none => .error "invalid base url"
      | some u =>
        let apiPath := goTrimSuffixSlash u.path
        let apiPath :=
          if goHasSuffix apiPath "/v1" || goHasSuffix apiPath "/v1beta" then apiPath
          else pathJoin [apiPath, "/v1beta"]
        let verb := if stream then "streamGenerateContent" else "generateContent"
        let newPath := pathJoin [apiPath, "models", model ++ ":" ++ verb]
        .ok ⟨u.scheme, u.host, newPath, querySet u.query "key" token⟩

/-! ### Streaming decode loop

All three `ChatStream` implementations share one control flow
(openai.go:102-151, Anthropic adapter source lines 126-175,
gemini.go:109-164): scan lines, classify each line at the string level,
JSON-decode the surviving payload, reject an embedded provider error, track
the sticky model / finish-reason fields, extract a text delta, append a
non-empty delta to the accumulator and hand it to the (possibly nil)
handler.  They differ only in the line classifier and in the four
per-chunk projections collected in `ChunkOps`.

The scanned input is the list of lines the `bufio.Scanner` delivers plus an
optional read error reported by `scanner.Err()` at end of input; JSON chunk
decoding is an oracle `String → Option χ`.  The handler is
`Option (String → Option ε)`: `none` is Go's nil handler, and a call
returning `some e` is a handler failure with error `e`.  The loop also
returns the list of deltas that were actually passed to the handler, in
call order (observability of handler invocations; a nil handler produces
`[]`). -/

/-- String-level classification of one scanned line: skipped, terminal
sentinel, or a JSON payload to decode. -/
inductive LineClass where
  | skip
  | done
  | payload (data : String)
deriving DecidableEq, Repr

/-- Line handling of the OpenAI- and Anthropic-style loops
(openai.go:109-116, Anthropic lines 133-140): blank and non-`data:` lines
are skipped, the `data:` payload is trimmed, and a literal `[DONE]` payload
ends the stream. -/
def classifySSELine (line : String) : LineClass :=
  let l := goTrimSpace line
  if l = "" then .skip
  else if !goHasPre l "data:" then .skip
  else
    let data := goTrimSpace (goDropN l 5)
    if data = "[DONE]" then .done else .payload data

/-- Line handling of the Gemini-style loop (gemini.go:116-129): blank lines
are skipped, a `data:` marker is optional, a literal `[DONE]` payload ends
the stream, and remaining lines not starting with `{` are skipped. -/
def classifyGeminiLine (line : String) : LineClass :=
  let l := goTrimSpace line
  if l = "" then .skip
  else
    let data := if goHasPre l "data:" then goTrimSpace (goDropN l 5) else l
    if data = "[DONE]" then .done
    else if !goHasPre data "\x7b" then .skip
    else .payload data

/-- The four per-chunk projections a stream loop uses: embedded provider
error, model identifier, finish reason, text delta.  An empty string means
"not present in this chunk". -/
structure ChunkOps (χ : Type) where
  err : χ → Option String
  model : χ → String
  finish : χ → String
  delta : χ → String

/-- Chunk projections of the OpenAI-style loop (openai.go:121-133): error
message, chunk model, first choice's finish reason and delta content (empty
when there is no choice). -/
def openAIOps : ChunkOps openAIChatResponse where
  err c := c.error.map (fun e => e.message)
  model c := c.model
  finish c := match c.choices with | [] => "" | ch :: _ => ch.finishReason
  delta c := match c.choices with | [] => "" | ch :: _ => ch.delta.content

/-- Chunk projections of the Anthropic-style loop (Anthropic adapter source
lines 145-160): `error` events carry the provider error, `message_start`
the model, `message_delta` the stop reason, `content_block_delta` the text
delta. -/
def anthropicOps : ChunkOps anthropicStreamEvent where
  err e := if e.type = "error" then e.error.map (fun x => x.message) else none
  model e :=
    if e.type = "message_start" then
      match e.message with | some m => m.model | none => ""
    else ""
  finish e := if e.type = "message_delta" then e.stopReason else ""
  delta e :=
    if e.type = "content_block_delta" then
      match e.delta with | some d => d.text | none => ""
    else ""

/-- Chunk projections of the Gemini-style loop (gemini.go:134-146): error
message, chunk model version, first candidate's finish reason and flattened
content (empty when there is no candidate). -/
def geminiOps : ChunkOps geminiGenerateContentResponse where
  err c := c.error.map (fun e => e.message)
  model c := c.modelVersion
  finish c := match c.candidates with | [] => "" | cd :: _ => cd.finishReason
  delta c := match c.candidates with | [] => "" | cd :: _ => flattenGeminiContent cd.content

/-- Failure outcomes of a streaming call, mirroring the return paths of the
Go loops: chunk decode failure, provider error in a chunk, scanner read
error, handler failure (carried verbatim).  The Go code pairs each with an
empty `ChatResponse{}`, which the `Except` error branch models. -/
inductive StreamErr (ε : Type) where
  | decodeErr (data : String)
  | provider (msg : String)
  | readFail (msg : String)
  | handler (e : ε)
deriving DecidableEq, Repr

/-- The shared stream decode loop.  Arguments: chunk projections, line
classifier, chunk decode oracle, optional handler, the terminal
`scanner.Err()` value, the scanned lines, and the three accumulators
(content, model, finish reason).  Returns the call outcome and the list of
deltas passed to the handler. -/
def streamLoop {χ ε : Type} (P : ChunkOps χ) (classify : String → LineClass)
    (dec : String → Option χ) (handle : Option (String → Option ε))
    (readErr : Option String) :
    List String → String → String → String →
    Except (StreamErr ε) ChatResponse × List String
  | [], acc, model, finish =>
    (match readErr with
     | some m => .error (.readFail m)
     | none => .ok ⟨acc, model, finish⟩, [])
  | line :: rest, acc, model, finish =>
    match classify line with
    | .skip => streamLoop P classify dec handle readErr rest acc model finish
    | .done => (.ok ⟨acc, model, finish⟩, [])
    | .payload data =>
      match dec data with
      | none => (.error (.decodeErr data), [])
      | some c =>
        match P.err c with
        | some m => (.error (.provider m), [])
        | none =>
          let model' := if P.model c = "" then model else P.model c
          let finish' := if P.finish c = "" then finish else P.finish c
          let d := P.delta c
          if d = "" then streamLoop P classify dec handle readErr rest acc model' finish'
          else
            match handle with
            | none => streamLoop P classify dec handle readErr rest (acc ++ d) model' finish'
            | some h =>
              match h d with
              | some e => (.error (.handler e), [d])
              | none =>
                let r := streamLoop P classify dec handle readErr rest (acc ++ d) model' finish'
                (r.1, d :: r.2)

/-- `OpenAIClient.ChatStream` decode loop (openai.go:102-151) from the start
state. -/
def openAIStreamRun {ε : Type} (dec : String → Option openAIChatResponse)
    (handle : Option (String → Option ε)) (lines : List String)
    (readErr : Option String) : Except (StreamErr ε) ChatResponse × List String :=
  streamLoop openAIOps classifySSELine dec handle readErr lines "" "" ""

/-- `AnthropicClient.ChatStream` decode loop (Anthropic adapter source lines
126-175) from the start state. -/
def anthropicStreamRun {ε : Type} (dec : String → Option anthropicStreamEvent)
    (handle : Option (String → Option ε)) (lines : List String)
    (readErr : Option String) : Except (StreamErr ε) ChatResponse × List String :=
  streamLoop anthropicOps classifySSELine dec handle readErr lines "" "" ""

/-- `GeminiClient.ChatStream` decode loop (gemini.go:109-164) from the start
state. -/
def geminiStreamRun {ε : Type} (dec : String → Option geminiGenerateContentResponse)
    (handle : Option (String → Option ε)) (lines : List String)
    (readErr : Option String) : Except (StreamErr ε) ChatResponse × List String :=
  streamLoop geminiOps classifyGeminiLine dec handle readErr lines "" "" ""

/-! ### Specification-side view of a line sequence -/

/-- The fate of one scanned line after classification and chunk decoding. -/
inductive Item (χ : Type) where
  | skip
  | done
  | bad (data : String)
  | chunk (c : χ)
deriving DecidableEq, Repr

/-- Classifies one line into an `Item`. -/
def itemOf {χ : Type} (classify : String → LineClass) (dec : String → Option χ)
    (line : String) : Item χ :=
  match classify line with
  | .skip => .skip
  | .done => .done
  | .payload data =>
    match dec data with
    | none => .bad data
    | some c => .chunk c

/-- The chunks decoded before the first terminal sentinel (skipped and
undecodable lines contribute nothing). -/
def chunksTilDone {χ : Type} : List (Item χ) → List χ
  | [] => []
  | .done :: _ => []
  | .chunk c :: rest => c :: chunksTilDone rest
  | .skip :: rest => chunksTilDone rest
  | .bad _ :: rest => chunksTilDone rest

/-- The chunks a line sequence decodes to, up to the first sentinel. -/
def streamChunks {χ : Type} (classify : String → LineClass)
    (dec : String → Option χ) (lines : List String) : List χ :=
  chunksTilDone (lines.map (itemOf classify dec))

/-- The non-empty deltas of a chunk list, in arrival order. -/
def deltasOf {χ : Type} (P : ChunkOps χ) (cs : List χ) : List String :=
  (cs.map P.delta).filter (fun d => d ≠ "")

/-- Last non-empty value of a sticky field: a later non-empty value
overwrites, an empty one never does. -/
def lastNonEmpty (init : String) (l : List String) : String :=
  l.foldl (fun a u => if u = "" then a else u) init

/-- A line sequence is clean up to the first sentinel: no undecodable
payload, no provider error inside a decoded chunk. -/
def cleanTilDone {χ : Type} (P : ChunkOps χ) : List (Item χ) → Bool
  | [] => true
  | .done :: _ => true
  | .bad _ :: _ => false
  | .chunk c :: rest => (P.err c).isNone && cleanTilDone P rest
  | .skip :: rest => cleanTilDone P rest

/-! ### Claim C6: OpenAI- and Anthropic-style endpoint construction -/

/-- C6: for every base URL, the OpenAI-style endpoint is the base with the
trailing slashes stripped plus `/chat/completions` when the stripped base
ends in `/v1` and plus `/v1/chat/completions` otherwise; the Anthropic-style
endpoint follows the same rule with target path `/messages`. -/
theorem endpoint_suffix_rule (baseURL : String) :
    (goHasSuffix (goTrimRightSlash baseURL) "/v1" = true →
      buildChatEndpoint baseURL = goTrimRightSlash baseURL ++ "/chat/completions"
      ∧ buildAnthropicEndpoint baseURL = goTrimRightSlash baseURL ++ "/messages")
    ∧ (goHasSuffix (goTrimRightSlash baseURL) "/v1" = false →
      buildChatEndpoint baseURL = goTrimRightSlash baseURL ++ "/v1/chat/completions"
      ∧ buildAnthropicEndpoint baseURL = goTrimRightSlash baseURL ++ "/v1/messages") := by
  constructor <;> intro h <;>
    exact ⟨by simp [buildChatEndpoint, h], by simp [buildAnthropicEndpoint, h]⟩

/-- Witness for C6: concrete base URLs with and without a `/v1` suffix. -/
theorem endpoint_suffix_rule_witness :
    buildChatEndpoint "https://api.example.com/v1/" = "https://api.example.com/v1/chat/completions"
    ∧ buildAnthropicEndpoint "https://alt.example.com" = "https://alt.example.com/v1/messages" := by
  constructor
  · exact (((endpoint_suffix_rule "https://api.example.com/v1/").1 (by decide)).1).trans (by decide)
  · exact (((endpoint_suffix_rule "https://alt.example.com").2 (by decide)).2).trans (by decide)

/-! ### Claim C2: zero-result handling of the blocking decode -/

/-- Counterexample to C2 as stated: the Anthropic-style blocking decode does
not fail on a decoded response with zero content blocks; it succeeds with an
empty content. -/
theorem anthropic_empty_blocks_ok :
    anthropicChatRun 200 (some ⟨"id", "claude-x", [], "end_turn", none⟩)
      = Except.ok ⟨"", "claude-x", "end_turn"⟩ := rfl

/-- C2 amended: on a 2xx status and a decodable body without a provider
error, the OpenAI-style `Chat` fails on zero choices and the Gemini-style
`Chat` fails on zero candidates, but the Anthropic-style `Chat` performs no
zero-result check: a response with zero content blocks is returned as a
success with empty content. -/
theorem zero_result_decode (st : Nat) (o : openAIChatResponse)
    (g : geminiGenerateContentResponse) (a : anthropicChatResponse) :
    200 ≤ st → st < 300 →
    ((o.error = none → o.choices = [] →
        openAIChatRun st (some o) = .error "openai response has no choices")
     ∧ (g.error = none → g.candidates = [] →
        geminiChatRun st (some g) = .error "gemini response has no candidates")
     ∧ (a.error = none → a.content = [] →
        anthropicChatRun st (some a) = .ok ⟨"", a.model, a.stopReason⟩)) := by
  intro h1 h2
  have hst : ¬ (st < 200 ∨ 300 ≤ st) := by omega
  refine ⟨fun he hc => ?_, fun he hc => ?_, fun he hc => ?_⟩
  · simp [openAIChatRun, openAI_do, hst, he, hc]
  · simp [geminiChatRun, gemini_do, hst, he, hc]
  · simp [anthropicChatRun, anthropic_do, hst, he, hc, flattenAnthropicContent]

/-- Witness for the amended C2 at concrete inputs. -/
theorem zero_result_decode_witness :
    openAIChatRun 200 (some ⟨"i", "gpt", [], none⟩) = .error "openai response has no choices"
    ∧ geminiChatRun 200 (some ⟨[], "gem", none⟩) = .error "gemini response has no candidates"
    ∧ anthropicChatRun 200 (some ⟨"i", "cl", [], "s", none⟩) = .ok ⟨"", "cl", "s"⟩ := by
  have h := zero_result_decode 200 ⟨"i", "gpt", [], none⟩ ⟨[], "gem", none⟩
    ⟨"i", "cl", [], "s", none⟩ (by decide) (by decide)
  exact ⟨h.1 rfl rfl, h.2.1 rfl rfl, h.2.2 rfl rfl⟩

/-! ### Claim C9: provider error on a 2xx blocking response -/

/-- C9: for each adapter, a 2xx blocking response whose decoded body carries
an explicit error object with message `rate limited` makes `Chat` fail with
an error whose text contains `rate limited`; no response content is
returned. -/
theorem rate_limited_surfaced (st : Nat) (o : openAIChatResponse)
    (a : anthropicChatResponse) (g : geminiGenerateContentResponse)
    (t1 t2 t3 : String) :
    200 ≤ st → st < 300 →
    ((o.error = some ⟨"rate limited", t1⟩ →
       ∃ e, openAIChatRun st (some o) = .error e
         ∧ ∃ pre post, e = pre ++ "rate limited" ++ post)
     ∧ (a.error = some ⟨"rate limited", t2⟩ →
       ∃ e, anthropicChatRun st (some a) = .error e
         ∧ ∃ pre post, e = pre ++ "rate limited" ++ post)
     ∧ (g.error = some ⟨"rate limited", t3⟩ →
       ∃ e, geminiChatRun st (some g) = .error e
         ∧ ∃ pre post, e = pre ++ "rate limited" ++ post)) := by
  intro h1 h2
  have hst : ¬ (st < 200 ∨ 300 ≤ st) := by omega
  refine ⟨fun he => ?_, fun he => ?_, fun he => ?_⟩
  · exact ⟨"openai error: " ++ "rate limited",
      by simp [openAIChatRun, openAI_do, hst, he],
      "openai error: ", "", by decide⟩
  · exact ⟨"anthropic error: " ++ "rate limited",
      by simp [anthropicChatRun, anthropic_do, hst, he],
      "anthropic error: ", "", by decide⟩
  · exact ⟨"gemini error: " ++ "rate limited",
      by simp [geminiChatRun, gemini_do, hst, he],
      "gemini error: ", "", by decide⟩

/-- Witness for C9 at concrete inputs. -/
theorem rate_limited_surfaced_witness :
    ∃ e, openAIChatRun 200 (some ⟨"i", "gpt", [], some ⟨"rate limited", "rl"⟩⟩) = .error e
      ∧ ∃ pre post, e = pre ++ "rate limited" ++ post := by
  exact (rate_limited_surfaced 200 ⟨"i", "gpt", [], some ⟨"rate limited", "rl"⟩⟩
    ⟨"i", "cl", [], "s", none⟩ ⟨[], "gem", none⟩ "rl" "x" "y"
    (by decide) (by decide)).1 rfl

/-! ### Claim C1: system-message extraction in wire payloads -/

/-- A request whose first message has the system role. -/
def sysFirstReq : ChatRequest := ⟨"", [⟨"system", "be brief"⟩, ⟨"user", "hi"⟩]⟩

/-- Counterexample to C1 as stated: the OpenAI-style wire payload does not
extract a leading system message; its message list stays the full input
(length 2), not the input minus the first element, and the payload has no
separate system-instruction field at all. -/
theorem openai_no_system_extraction :
    (openAIChatPayload "gpt" sysFirstReq).messages = sysFirstReq.messages
    ∧ (openAIChatPayload "gpt" sysFirstReq).messages ≠ List.drop 1 sysFirstReq.messages := by
  exact ⟨rfl, by decide⟩

/-- C1 amended: the Anthropic- and Gemini-style payloads extract a leading
system message into their separate system field and keep the remaining
messages in order (the Gemini contents are the in-order image of the
messages under the role-renaming conversion); with a non-system first
message they carry all input messages in order.  The OpenAI-style payload
always passes the message list through unchanged and has no system field. -/
theorem system_message_extraction (m : Message) (rest : List Message)
    (cm rm : String) (mt : Int) :
    (∀ req : ChatRequest, (openAIChatPayload cm req).messages = req.messages)
    ∧ (m.role ≠ "system" →
        (anthropicChatPayload cm mt ⟨rm, m :: rest⟩).messages = m :: rest
        ∧ (anthropicChatPayload cm mt ⟨rm, m :: rest⟩).system = ""
        ∧ (geminiChatPayload ⟨rm, m :: rest⟩).contents = (m :: rest).map geminiMsgContent
        ∧ (geminiChatPayload ⟨rm, m :: rest⟩).systemInstruction = none
        ∧ (geminiChatPayload ⟨rm, m :: rest⟩).contents.length = (m :: rest).length)
    ∧ (m.role = "system" →
        (anthropicChatPayload cm mt ⟨rm, m :: rest⟩).messages = rest
        ∧ (anthropicChatPayload cm mt ⟨rm, m :: rest⟩).system = m.content
        ∧ (geminiChatPayload ⟨rm, m :: rest⟩).contents = rest.map geminiMsgContent
        ∧ (geminiChatPayload ⟨rm, m :: rest⟩).systemInstruction = some ⟨[⟨m.content⟩]⟩) := by
  refine ⟨fun req => rfl, fun h => ?_, fun h => ?_⟩
  · refine ⟨?_, ?_, ?_, ?_, ?_⟩ <;>
      simp [anthropicChatPayload, geminiChatPayload, splitAnthropicMessages,
        buildGeminiContents, h]
  · refine ⟨?_, ?_, ?_, ?_⟩ <;>
      simp [anthropicChatPayload, geminiChatPayload, splitAnthropicMessages,
        buildGeminiContents, h]

/-- Witness for the amended C1 at a concrete system-first request. -/
theorem system_message_extraction_witness :
    (anthropicChatPayload "cl" 1024 ⟨"", [⟨"system", "s"⟩, ⟨"user", "u"⟩]⟩).messages
        = [⟨"user", "u"⟩]
    ∧ (anthropicChatPayload "cl" 1024 ⟨"", [⟨"system", "s"⟩, ⟨"user", "u"⟩]⟩).system = "s"
    ∧ (geminiChatPayload ⟨"", [⟨"system", "s"⟩, ⟨"user", "u"⟩]⟩).systemInstruction
        = some ⟨[⟨"s"⟩]⟩ := by
  have h := (system_message_extraction ⟨"system", "s"⟩ [⟨"user", "u"⟩] "cl" "" 1024).2.2 rfl
  exact ⟨h.1, h.2.1, h.2.2.2⟩

/-! ### Helper lemmas -/

/-- Appending commutes with taking the character data. -/
theorem strDataAppend (a b : String) : (a ++ b).data = a.data ++ b.data := by
  cases a; cases b; rfl

/-- Two strings with the same character data are equal. -/
theorem strExt {a b : String} (h : a.data = b.data) : a = b := by
  cases a; cases b; exact congrArg String.mk h

/-- String append is associative. -/
theorem strAppendAssoc (a b c : String) : (a ++ b) ++ c = a ++ (b ++ c) :=
  strExt (by simp [strDataAppend])

/-- The empty string is a right identity. -/
theorem strAppendEmpty (a : String) : a ++ "" = a :=
  strExt (by simp [strDataAppend])

/-- Concatenation of a list of strings in order. -/
def concatStrs : List String → String
  | [] => ""
  | d :: rest => d ++ concatStrs rest

theorem lastNonEmpty_cons (init x : String) (l : List String) :
    lastNonEmpty init (x :: l) = lastNonEmpty (if x = "" then init else x) l := rfl

theorem deltasOf_cons {χ : Type} (P : ChunkOps χ) (c : χ) (cs : List χ) :
    deltasOf P (c :: cs)
      = if P.delta c = "" then deltasOf P cs else P.delta c :: deltasOf P cs := by
  by_cases hd : P.delta c = "" <;> simp [deltasOf, hd]

/-- Characterization of a normally terminating stream run: the accumulated
content is the in-order concatenation of the non-empty deltas of the chunks
decoded before the sentinel, and the model / finish-reason fields are the
respective last non-empty values observed across those chunks. -/
theorem streamLoop_ok {χ ε : Type} (P : ChunkOps χ) (classify : String → LineClass)
    (dec : String → Option χ) (handle : Option (String → Option ε))
    (readErr : Option String) :
    ∀ (lines : List String) (acc model finish : String) (r : ChatResponse)
      (log : List String),
    streamLoop P classify dec handle readErr lines acc model finish = (.ok r, log) →
    r.content = acc ++ concatStrs (deltasOf P (streamChunks classify dec lines))
    ∧ r.model = lastNonEmpty model ((streamChunks classify dec lines).map P.model)
    ∧ r.finishReason
        = lastNonEmpty finish ((streamChunks classify dec lines).map P.finish) := by
  intro lines
  induction lines with
  | nil =>
    intro acc model finish r log h
    cases hre : readErr with
    | some m => rw [hre] at h; simp [streamLoop] at h
    | none =>
      rw [hre] at h
      simp only [streamLoop, Prod.mk.injEq] at h
      obtain ⟨h1, h2⟩ := h
      cases h1
      simp [streamChunks, chunksTilDone, deltasOf, concatStrs, lastNonEmpty,
        strAppendEmpty]
  | cons line rest ih =>
    intro acc model finish r log h
    cases hc : classify line with
    | skip =>
      simp only [streamLoop, hc] at h
      have := ih acc model finish r log h
      simpa [streamChunks, itemOf, hc, chunksTilDone] using this
    | done =>
      simp only [streamLoop, hc, Prod.mk.injEq] at h
      obtain ⟨h1, h2⟩ := h
      cases h1
      simp [streamChunks, itemOf, hc, chunksTilDone, deltasOf, concatStrs,
        lastNonEmpty, strAppendEmpty]
    | payload data =>
      simp only [streamLoop, hc] at h
      cases hd : dec data with
      | none => simp only [hd] at h; simp at h
      | some c =>
        simp only [hd] at h
        cases he : P.err c with
        | some m => simp only [he] at h; simp at h
        | none =>
          simp only [he] at h
          have hchunks : streamChunks classify dec (line :: rest)
              = c :: streamChunks classify dec rest := by
            simp [streamChunks, itemOf, hc, hd, chunksTilDone]
          by_cases hdel : P.delta c = ""
          · rw [if_pos hdel] at h
            have := ih acc (if P.model c = "" then model else P.model c)
              (if P.finish c = "" then finish else P.finish c) r log h
            rw [hchunks, deltasOf_cons, if_pos hdel]
            simpa [lastNonEmpty_cons, hdel] using this
          · rw [if_neg hdel] at h
            rw [hchunks, deltasOf_cons, if_neg hdel]
            cases hh : handle with
            | none =>
              simp only [hh] at h
              subst hh
              have := ih (acc ++ P.delta c)
                (if P.model c = "" then model else P.model c)
                (if P.finish c = "" then finish else P.finish c) r log h
              simp only [concatStrs] at *
              refine ⟨?_, ?_, ?_⟩
              · rw [this.1, strAppendAssoc]
              · simpa [lastNonEmpty_cons] using this.2.1
              · simpa [lastNonEmpty_cons] using this.2.2
            | some hf =>
              simp only [hh] at h
              subst hh
              cases hfd : hf (P.delta c) with
              | some e => simp only [hfd] at h; simp at h
              | none =>
                simp only [hfd] at h
                rcases hr' : streamLoop P classify dec (some hf) readErr rest
                    (acc ++ P.delta c)
                    (if P.model c = "" then model else P.model c)
                    (if P.finish c = "" then finish else P.finish c) with ⟨res, lg⟩
                rw [hr'] at h
                simp only [Prod.mk.injEq] at h
                obtain ⟨h1, h2⟩ := h
                have := ih (acc ++ P.delta c)
                  (if P.model c = "" then model else P.model c)
                  (if P.finish c = "" then finish else P.finish c) r lg (by rw [hr', h1])
                simp only [concatStrs] at *
                refine ⟨?_, ?_, ?_⟩
                · rw [this.1, strAppendAssoc]
                · simpa [lastNonEmpty_cons] using this.2.1
                · simpa [lastNonEmpty_cons] using this.2.2

/-- The empty string is a left identity. -/
theorem strEmptyAppend (a : String) : "" ++ a = a := by cases a; rfl

/-! ### Claim C4: sticky model and finish-reason fields -/

/-- C4: for each adapter, a normally terminating stream run returns as model
the last non-empty model identifier observed across the decoded chunks
(empty if none) and as finish reason the last non-empty finish/stop reason
observed (empty if none); later non-empty values overwrite earlier ones and
empty values never overwrite (that is the `lastNonEmpty` fold). -/
theorem sticky_stream_fields {ε : Type}
    (dec_o : String → Option openAIChatResponse)
    (dec_a : String → Option anthropicStreamEvent)
    (dec_g : String → Option geminiGenerateContentResponse)
    (h_o h_a h_g : Option (String → Option ε))
    (lines_o lines_a lines_g : List String)
    (re_o re_a re_g : Option String)
    (r_o r_a r_g : ChatResponse) (log_o log_a log_g : List String) :
    (openAIStreamRun dec_o h_o lines_o re_o = (.ok r_o, log_o) →
      r_o.model
          = lastNonEmpty "" ((streamChunks classifySSELine dec_o lines_o).map openAIOps.model)
      ∧ r_o.finishReason
          = lastNonEmpty "" ((streamChunks classifySSELine dec_o lines_o).map openAIOps.finish))
    ∧ (anthropicStreamRun dec_a h_a lines_a re_a = (.ok r_a, log_a) →
      r_a.model
          = lastNonEmpty "" ((streamChunks classifySSELine dec_a lines_a).map anthropicOps.model)
      ∧ r_a.finishReason
          = lastNonEmpty "" ((streamChunks classifySSELine dec_a lines_a).map anthropicOps.finish))
    ∧ (geminiStreamRun dec_g h_g lines_g re_g = (.ok r_g, log_g) →
      r_g.model
          = lastNonEmpty "" ((streamChunks classifyGeminiLine dec_g lines_g).map geminiOps.model)
      ∧ r_g.finishReason
          = lastNonEmpty "" ((streamChunks classifyGeminiLine dec_g lines_g).map geminiOps.finish)) := by
  refine ⟨fun h => ?_, fun h => ?_, fun h => ?_⟩
  · exact (streamLoop_ok openAIOps classifySSELine dec_o h_o re_o lines_o
      "" "" "" r_o log_o h).2
  · exact (streamLoop_ok anthropicOps classifySSELine dec_a h_a re_a lines_a
      "" "" "" r_a log_a h).2
  · exact (streamLoop_ok geminiOps classifyGeminiLine dec_g h_g re_g lines_g
      "" "" "" r_g log_g h).2

/-- Concrete OpenAI-style chunk oracle for witnesses: chunk `A` carries only
a model identifier, chunk `B` a delta, a finish reason and no model. -/
def decWitOpenAI : String → Option openAIChatResponse := fun s =>
  if s = "A" then some ⟨"", "m1", [], none⟩
  else if s = "B" then some ⟨"", "", [⟨⟨"assistant", ""⟩, ⟨"assistant", "hi"⟩, "stop"⟩], none⟩
  else none

/-- The witness line sequence: two event-data lines. -/
def linesWit : List String := ["data: A", "data: B"]

/-- Witness for C4: on the concrete two-chunk stream the model comes from
the first chunk and the finish reason from the second. -/
theorem sticky_stream_fields_witness :
    openAIStreamRun decWitOpenAI (none : Option (String → Option String)) linesWit none
      = (.ok ⟨"hi", "m1", "stop"⟩, [])
    ∧ ("m1" : String)
        = lastNonEmpty "" ((streamChunks classifySSELine decWitOpenAI linesWit).map openAIOps.model)
    ∧ ("stop" : String)
        = lastNonEmpty "" ((streamChunks classifySSELine decWitOpenAI linesWit).map openAIOps.finish) := by
  have hrun : openAIStreamRun decWitOpenAI (none : Option (String → Option String)) linesWit none
      = (.ok ⟨"hi", "m1", "stop"⟩, []) := by rfl
  have h := (sticky_stream_fields decWitOpenAI (fun _ => none) (fun _ => none)
    (none : Option (String → Option String)) none none linesWit [] [] none none none
    ⟨"hi", "m1", "stop"⟩ ⟨"", "", ""⟩ ⟨"", "", ""⟩ [] [] []).1 hrun
  exact ⟨hrun, h.1, h.2⟩

/-! ### Claim C5: streamed content equals blocking-equivalent content -/

theorem foldl_append_strs (init : String) (l : List String) :
    l.foldl (fun b d => b ++ d) init = init ++ concatStrs l := by
  induction l generalizing init with
  | nil => simp [concatStrs, strAppendEmpty]
  | cons d rest ih => simp only [List.foldl, concatStrs, ih, strAppendAssoc]

/-- Flattening text blocks built from a list of strings concatenates the
strings. -/
theorem flattenAnthropic_of_texts (l : List String) :
    flattenAnthropicContent (l.map (fun d => ⟨"text", d⟩)) = concatStrs l := by
  have go : ∀ (init : String) (l : List String),
      (l.map (fun d => (⟨"text", d⟩ : anthropicContent))).foldl
        (fun b blk => if blk.type = "text" then b ++ blk.text else b) init
        = init ++ concatStrs l := by
    intro init l
    induction l generalizing init with
    | nil => simp [concatStrs, strAppendEmpty]
    | cons d rest ih => simp [concatStrs, ih, strAppendAssoc]
  simpa [flattenAnthropicContent, strEmptyAppend] using go "" l

/-- Flattening parts built from a list of non-empty strings concatenates
the strings. -/
theorem flattenGemini_of_parts (role : String) (l : List String)
    (hne : ∀ d ∈ l, d ≠ "") :
    flattenGeminiContent ⟨role, l.map (fun d => ⟨d⟩)⟩ = concatStrs l := by
  have go : ∀ (init : String) (l : List String), (∀ d ∈ l, d ≠ "") →
      (l.map (fun d => (⟨d⟩ : geminiPart))).foldl
        (fun b p => if p.text = "" then b else b ++ p.text) init
        = init ++ concatStrs l := by
    intro init l
    induction l generalizing init with
    | nil => intro h; simp [concatStrs, strAppendEmpty]
    | cons d rest ih =>
      intro h
      have hd : d ≠ "" := h d (by simp)
      simp only [List.map, List.foldl, concatStrs]
      rw [if_neg hd, ih (init ++ d) (fun x hx => h x (by simp [hx])), strAppendAssoc]
  simpa [flattenGeminiContent, strEmptyAppend] using go "" l hne

/-- Every delta in `deltasOf` is non-empty. -/
theorem deltasOf_ne_empty {χ : Type} (P : ChunkOps χ) (cs : List χ) :
    ∀ d ∈ deltasOf P cs, d ≠ "" := by
  intro d hd
  have := List.of_mem_filter hd
  simpa using this

/-- C5: for each adapter, a normally terminating stream run accumulates as
content exactly the in-order concatenation of the non-empty deltas of the
decoded chunks, and the blocking decoder applied to an equivalent
non-streamed response carrying that same text (one message for the
OpenAI-style shape, one text block per delta for the Anthropic-style shape,
one part per delta for the Gemini-style shape) returns the same content. -/
theorem stream_blocking_content_agree {ε : Type}
    (dec_o : String → Option openAIChatResponse)
    (dec_a : String → Option anthropicStreamEvent)
    (dec_g : String → Option geminiGenerateContentResponse)
    (h_o h_a h_g : Option (String → Option ε))
    (lines_o lines_a lines_g : List String)
    (re_o re_a re_g : Option String)
    (r_o r_a r_g : ChatResponse) (log_o log_a log_g : List String) :
    (openAIStreamRun dec_o h_o lines_o re_o = (.ok r_o, log_o) →
      r_o.content = concatStrs (deltasOf openAIOps (streamChunks classifySSELine dec_o lines_o))
      ∧ openAIChatRun 200
          (some ⟨"", r_o.model, [⟨⟨"assistant", r_o.content⟩, ⟨"", ""⟩, r_o.finishReason⟩], none⟩)
          = .ok ⟨r_o.content, r_o.model, r_o.finishReason⟩)
    ∧ (anthropicStreamRun dec_a h_a lines_a re_a = (.ok r_a, log_a) →
      r_a.content
          = concatStrs (deltasOf anthropicOps (streamChunks classifySSELine dec_a lines_a))
      ∧ anthropicChatRun 200
          (some ⟨"", r_a.model,
            (deltasOf anthropicOps (streamChunks classifySSELine dec_a lines_a)).map
              (fun d => ⟨"text", d⟩),
            r_a.finishReason, none⟩)
          = .ok ⟨r_a.content, r_a.model, r_a.finishReason⟩)
    ∧ (geminiStreamRun dec_g h_g lines_g re_g = (.ok r_g, log_g) →
      r_g.content
          = concatStrs (deltasOf geminiOps (streamChunks classifyGeminiLine dec_g lines_g))
      ∧ geminiChatRun 200
          (some ⟨[⟨⟨"model",
              (deltasOf geminiOps (streamChunks classifyGeminiLine dec_g lines_g)).map
                (fun d => ⟨d⟩)⟩,
            r_g.finishReason⟩], r_g.model, none⟩)
          = .ok ⟨r_g.content, r_g.model, r_g.finishReason⟩) := by
  refine ⟨fun h => ?_, fun h => ?_, fun h => ?_⟩
  · have hc := (streamLoop_ok openAIOps classifySSELine dec_o h_o re_o lines_o
      "" "" "" r_o log_o h).1
    rw [strEmptyAppend] at hc
    exact ⟨hc, rfl⟩
  · have hok := streamLoop_ok anthropicOps classifySSELine dec_a h_a re_a lines_a
      "" "" "" r_a log_a h
    have hc := hok.1
    rw [strEmptyAppend] at hc
    refine ⟨hc, ?_⟩
    have : anthropicChatRun 200
        (some ⟨"", r_a.model,
          (deltasOf anthropicOps (streamChunks classifySSELine dec_a lines_a)).map
            (fun d => ⟨"text", d⟩),
          r_a.finishReason, none⟩)
        = .ok ⟨flattenAnthropicContent
            ((deltasOf anthropicOps (streamChunks classifySSELine dec_a lines_a)).map
              (fun d => ⟨"text", d⟩)),
          r_a.model, r_a.finishReason⟩ := rfl
    rw [this, flattenAnthropic_of_texts, ← hc]
  · have hok := streamLoop_ok geminiOps classifyGeminiLine dec_g h_g re_g lines_g
      "" "" "" r_g log_g h
    have hc := hok.1
    rw [strEmptyAppend] at hc
    refine ⟨hc, ?_⟩
    have : geminiChatRun 200
        (some ⟨[⟨⟨"model",
            (deltasOf geminiOps (streamChunks classifyGeminiLine dec_g lines_g)).map
              (fun d => ⟨d⟩)⟩,
          r_g.finishReason⟩], r_g.model, none⟩)
        = .ok ⟨flattenGeminiContent ⟨"model",
            (deltasOf geminiOps (streamChunks classifyGeminiLine dec_g lines_g)).map
              (fun d => ⟨d⟩)⟩,
          r_g.model, r_g.finishReason⟩ := rfl
    rw [this, flattenGemini_of_parts _ _ (deltasOf_ne_empty _ _), ← hc]

/-- Witness for C5 on the concrete two-chunk OpenAI-style stream. -/
theorem stream_blocking_content_agree_witness :
    ("hi" : String)
        = concatStrs (deltasOf openAIOps (streamChunks classifySSELine decWitOpenAI linesWit))
    ∧ openAIChatRun 200 (some ⟨"", "m1", [⟨⟨"assistant", "hi"⟩, ⟨"", ""⟩, "stop"⟩], none⟩)
        = .ok ⟨"hi", "m1", "stop"⟩ := by
  have h := (stream_blocking_content_agree decWitOpenAI (fun _ => none) (fun _ => none)
    (none : Option (String → Option String)) none none linesWit [] [] none none none
    ⟨"hi", "m1", "stop"⟩ ⟨"", "", ""⟩ ⟨"", "", ""⟩ [] [] []).1 (by rfl)
  exact h

/-! ### Claim C3: handler failure aborts the stream -/

/-- On a stream that is clean up to the sentinel, a handler that accepts the
first `k` non-empty deltas and rejects the `k`-th (0-based) with error `e`
makes the loop return exactly `handler e`, and the deltas passed to the
handler are exactly the first `k + 1` ones: nothing after the failing delta
is ever delivered. -/
theorem streamLoop_handler_abort {χ ε : Type} (P : ChunkOps χ)
    (classify : String → LineClass) (dec : String → Option χ)
    (hf : String → Option ε) :
    ∀ (lines : List String) (readErr : Option String) (acc model finish : String)
      (k : Nat) (e : ε) (dk : String),
    cleanTilDone P (lines.map (itemOf classify dec)) = true →
    (∀ d ∈ (deltasOf P (streamChunks classify dec lines)).take k, hf d = none) →
    (deltasOf P (streamChunks classify dec lines)).get? k = some dk →
    hf dk = some e →
    streamLoop P classify dec (some hf) readErr lines acc model finish
      = (.error (.handler e), (deltasOf P (streamChunks classify dec lines)).take (k + 1)) := by
  intro lines
  induction lines with
  | nil =>
    intro readErr acc model finish k e dk hclean htake hgetk hfail
    simp [streamChunks, chunksTilDone, deltasOf] at hgetk
  | cons line rest ih =>
    intro readErr acc model finish k e dk hclean htake hgetk hfail
    cases hc : classify line with
    | skip =>
      rw [show streamChunks classify dec (line :: rest) = streamChunks classify dec rest by
        simp [streamChunks, itemOf, hc, chunksTilDone]] at htake hgetk ⊢
      have hclean' : cleanTilDone P (rest.map (itemOf classify dec)) = true := by
        simp [itemOf, hc, cleanTilDone] at hclean
        exact hclean
      simp only [streamLoop, hc]
      exact ih readErr acc model finish k e dk hclean' htake hgetk hfail
    | done =>
      rw [show streamChunks classify dec (line :: rest) = [] by
        simp [streamChunks, itemOf, hc, chunksTilDone]] at hgetk
      simp [deltasOf] at hgetk
    | payload data =>
      cases hd : dec data with
      | none =>
        simp [itemOf, hc, hd, cleanTilDone] at hclean
      | some c =>
        have hcleans : (P.err c).isNone = true
            ∧ cleanTilDone P (rest.map (itemOf classify dec)) = true := by
          simpa [itemOf, hc, hd, cleanTilDone, Bool.and_eq_true] using hclean
        have he : P.err c = none := by
          cases hpe : P.err c
          · rfl
          · rw [hpe] at hcleans; simp at hcleans
        have hchunks : streamChunks classify dec (line :: rest)
            = c :: streamChunks classify dec rest := by
          simp [streamChunks, itemOf, hc, hd, chunksTilDone]
        simp only [streamLoop, hc, hd, he]
        by_cases hdel : P.delta c = ""
        · rw [if_pos hdel]
          rw [hchunks, deltasOf_cons, if_pos hdel] at htake hgetk ⊢
          exact ih readErr acc (if P.model c = "" then model else P.model c)
            (if P.finish c = "" then finish else P.finish c) k e dk hcleans.2 htake hgetk hfail
        · rw [if_neg hdel]
          rw [hchunks, deltasOf_cons, if_neg hdel] at htake hgetk ⊢
          cases k with
          | zero =>
            have hdk : P.delta c = dk := by simpa [List.get?] using hgetk
            rw [hdk, hfail]
            simp [List.take]
          | succ kp =>
            have hfd : hf (P.delta c) = none := htake (P.delta c) (by simp [List.take])
            simp only [hfd]
            have htake' : ∀ d ∈ (deltasOf P (streamChunks classify dec rest)).take kp,
                hf d = none := by
              intro d hd'
              exact htake d (by simp [List.take, hd'])
            have hgetk' : (deltasOf P (streamChunks classify dec rest)).get? kp = some dk := by
              simpa [List.get?] using hgetk
            rw [ih readErr (acc ++ P.delta c) (if P.model c = "" then model else P.model c)
              (if P.finish c = "" then finish else P.finish c) kp e dk hcleans.2
              htake' hgetk' hfail]
            simp [List.take]

/-- C3: for each adapter's stream loop on a chunk sequence that is clean up
to the sentinel, if the caller-supplied handler accepts the first `k`
non-empty deltas and returns error `e` on the `k`-th (0-based) one, the
call returns exactly that error (carried verbatim in the `handler`
constructor, with no response data), and the deltas passed to the handler
are exactly the first `k + 1`: no later delta is ever delivered. -/
theorem handler_abort_stops_stream {ε : Type}
    (dec_o : String → Option openAIChatResponse)
    (dec_a : String → Option anthropicStreamEvent)
    (dec_g : String → Option geminiGenerateContentResponse)
    (hf_o hf_a hf_g : String → Option ε)
    (lines_o lines_a lines_g : List String)
    (re_o re_a re_g : Option String)
    (k_o k_a k_g : Nat) (e_o e_a e_g : ε) (d_o d_a d_g : String) :
    (cleanTilDone openAIOps (lines_o.map (itemOf classifySSELine dec_o)) = true →
      (∀ d ∈ (deltasOf openAIOps (streamChunks classifySSELine dec_o lines_o)).take k_o,
        hf_o d = none) →
      (deltasOf openAIOps (streamChunks classifySSELine dec_o lines_o)).get? k_o = some d_o →
      hf_o d_o = some e_o →
      openAIStreamRun dec_o (some hf_o) lines_o re_o
        = (.error (.handler e_o),
           (deltasOf openAIOps (streamChunks classifySSELine dec_o lines_o)).take (k_o + 1)))
    ∧ (cleanTilDone anthropicOps (lines_a.map (itemOf classifySSELine dec_a)) = true →
      (∀ d ∈ (deltasOf anthropicOps (streamChunks classifySSELine dec_a lines_a)).take k_a,
        hf_a d = none) →
      (deltasOf anthropicOps (streamChunks classifySSELine dec_a lines_a)).get? k_a = some d_a →
      hf_a d_a = some e_a →
      anthropicStreamRun dec_a (some hf_a) lines_a re_a
        = (.error (.handler e_a),
           (deltasOf anthropicOps (streamChunks classifySSELine dec_a lines_a)).take (k_a + 1)))
    ∧ (cleanTilDone geminiOps (lines_g.map (itemOf classifyGeminiLine dec_g)) = true →
      (∀ d ∈ (deltasOf geminiOps (streamChunks classifyGeminiLine dec_g lines_g)).take k_g,
        hf_g d = none) →
      (deltasOf geminiOps (streamChunks classifyGeminiLine dec_g lines_g)).get? k_g = some d_g →
      hf_g d_g = some e_g →
      geminiStreamRun dec_g (some hf_g) lines_g re_g
        = (.error (.handler e_g),
           (deltasOf geminiOps (streamChunks classifyGeminiLine dec_g lines_g)).take (k_g + 1))) := by
  refine ⟨fun h1 h2 h3 h4 => ?_, fun h1 h2 h3 h4 => ?_, fun h1 h2 h3 h4 => ?_⟩
  · exact streamLoop_handler_abort openAIOps classifySSELine dec_o hf_o lines_o re_o
      "" "" "" k_o e_o d_o h1 h2 h3 h4
  · exact streamLoop_handler_abort anthropicOps classifySSELine dec_a hf_a lines_a re_a
      "" "" "" k_a e_a d_a h1 h2 h3 h4
  · exact streamLoop_handler_abort geminiOps classifyGeminiLine dec_g hf_g lines_g re_g
      "" "" "" k_g e_g d_g h1 h2 h3 h4

/-- Concrete three-chunk OpenAI-style oracle with deltas `a`, `b`, `c`. -/
def decWitAbort : String → Option openAIChatResponse := fun s =>
  if s = "A" then some ⟨"", "", [⟨⟨"assistant", ""⟩, ⟨"assistant", "a"⟩, ""⟩], none⟩
  else if s = "B" then some ⟨"", "", [⟨⟨"assistant", ""⟩, ⟨"assistant", "b"⟩, ""⟩], none⟩
  else if s = "C" then some ⟨"", "", [⟨⟨"assistant", ""⟩, ⟨"assistant", "c"⟩, ""⟩], none⟩
  else none

/-- Concrete handler failing on delta `b`. -/
def hfWitAbort : String → Option String := fun d => if d = "b" then some "boom" else none

/-- The three-line witness stream. -/
def linesWitAbort : List String := ["data: A", "data: B", "data: C"]

/-- Witness for C3: the handler fails on the second delta, the error is
returned, and only the first two deltas were delivered (the third chunk's
delta `c` never reaches the handler). -/
theorem handler_abort_stops_stream_witness :
    openAIStreamRun decWitAbort (some hfWitAbort) linesWitAbort none
      = (.error (.handler "boom"), ["a", "b"]) := by
  have h := (handler_abort_stops_stream decWitAbort (fun _ => none) (fun _ => none)
    hfWitAbort (fun _ => none) (fun _ => none) linesWitAbort [] [] none none none
    1 0 0 "boom" "x" "x" "b" "" "").1 (by rfl) (by decide) (by rfl) (by rfl)
  exact h.trans (by rfl)

/-! ### Claim C10: nil handler -/

/-- With a nil handler the loop behaves exactly like a loop with a handler
that always succeeds, except that no handler invocation ever happens: the
outcome (accumulated response or error) is identical and the delivered-delta
list is empty. -/
theorem streamLoop_nil_handler {χ ε : Type} (P : ChunkOps χ)
    (classify : String → LineClass) (dec : String → Option χ)
    (readErr : Option String) :
    ∀ (lines : List String) (acc model finish : String),
    streamLoop P classify dec (none : Option (String → Option ε)) readErr lines acc model finish
      = ((streamLoop P classify dec (some (fun _ => none)) readErr lines acc model finish).1,
         []) := by
  intro lines
  induction lines with
  | nil => intro acc model finish; cases readErr <;> simp [streamLoop]
  | cons line rest ih =>
    intro acc model finish
    cases hc : classify line with
    | skip => simp only [streamLoop, hc]; exact ih acc model finish
    | done => simp [streamLoop, hc]
    | payload data =>
      cases hd : dec data with
      | none => simp [streamLoop, hc, hd]
      | some c =>
        cases he : P.err c with
        | some m => simp [streamLoop, hc, hd, he]
        | none =>
          simp only [streamLoop, hc, hd, he]
          by_cases hdel : P.delta c = ""
          · rw [if_pos hdel, if_pos hdel]
            exact ih acc (if P.model c = "" then model else P.model c)
              (if P.finish c = "" then finish else P.finish c)
          · rw [if_neg hdel, if_neg hdel]
            simp only
            rw [ih (acc ++ P.delta c) (if P.model c = "" then model else P.model c)
              (if P.finish c = "" then finish else P.finish c)]

/-- C10: for each adapter, a stream call with a nil handler does not invoke
any handler (the delivered-delta list is empty) and returns exactly the
outcome of the same run under an always-succeeding handler: the loop runs
to the same termination, non-empty deltas are still accumulated, and the
accumulated response is returned. -/
theorem nil_handler_safe {ε : Type}
    (dec_o : String → Option openAIChatResponse)
    (dec_a : String → Option anthropicStreamEvent)
    (dec_g : String → Option geminiGenerateContentResponse)
    (lines_o lines_a lines_g : List String)
    (re_o re_a re_g : Option String) :
    openAIStreamRun dec_o (none : Option (String → Option ε)) lines_o re_o
      = ((openAIStreamRun dec_o (some (fun _ => none)) lines_o re_o).1, [])
    ∧ anthropicStreamRun dec_a (none : Option (String → Option ε)) lines_a re_a
      = ((anthropicStreamRun dec_a (some (fun _ => none)) lines_a re_a).1, [])
    ∧ geminiStreamRun dec_g (none : Option (String → Option ε)) lines_g re_g
      = ((geminiStreamRun dec_g (some (fun _ => none)) lines_g re_g).1, []) :=
  ⟨streamLoop_nil_handler openAIOps classifySSELine dec_o re_o lines_o "" "" "",
   streamLoop_nil_handler anthropicOps classifySSELine dec_a re_a lines_a "" "" "",
   streamLoop_nil_handler geminiOps classifyGeminiLine dec_g re_g lines_g "" "" ""⟩

/-! ### Claim C8: termination causes of the Gemini-style loop -/

/-- Concrete Gemini-style oracle: the payload `{X}` decodes to one candidate
carrying the text `x`. -/
def decWitGem : String → Option geminiGenerateContentResponse := fun s =>
  if s = "\x7bX\x7d" then some ⟨[⟨⟨"model", [⟨"x"⟩]⟩, ""⟩], "", none⟩ else none

/-- Counterexample to C8 as stated: the Gemini-style loop does terminate on
an explicit terminal-sentinel payload.  The line `[DONE]` classifies as the
sentinel, and a stream consisting of that line followed by a decodable chunk
with text `x` returns the empty accumulation without ever processing the
chunk, while the same stream without the sentinel returns `x`. -/
theorem gemini_sentinel_terminates :
    classifyGeminiLine "[DONE]" = LineClass.done
    ∧ geminiStreamRun decWitGem (none : Option (String → Option String))
        ["[DONE]", "\x7bX\x7d"] none = (.ok ⟨"", "", ""⟩, [])
    ∧ geminiStreamRun decWitGem (none : Option (String → Option String))
        ["\x7bX\x7d"] none = (.ok ⟨"x", "", ""⟩, []) :=
  ⟨rfl, rfl, rfl⟩

/-- C8 amended: the Gemini-style decode loop terminates on end of input, a
read error, a chunk decode error, a provider error in a chunk, handler
failure, or the literal `[DONE]` terminal-sentinel payload (after optional
`data:` stripping), which ends the stream immediately with the accumulated
response; a sentinel line is exactly a non-blank line whose optionally
`data:`-stripped trimmed payload is `[DONE]`. -/
theorem gemini_sentinel_rule {ε : Type} (line : String) (rest : List String)
    (dec : String → Option geminiGenerateContentResponse)
    (handle : Option (String → Option ε)) (readErr : Option String)
    (acc model finish : String) :
    (classifyGeminiLine line = LineClass.done →
      streamLoop geminiOps classifyGeminiLine dec handle readErr (line :: rest)
        acc model finish = (.ok ⟨acc, model, finish⟩, []))
    ∧ (classifyGeminiLine line = LineClass.done ↔
        goTrimSpace line ≠ ""
        ∧ (if goHasPre (goTrimSpace line) "data:"
           then goTrimSpace (goDropN (goTrimSpace line) 5)
           else goTrimSpace line) = "[DONE]") := by
  constructor
  · intro h
    simp [streamLoop, h]
  · unfold classifyGeminiLine
    by_cases hb : goTrimSpace line = ""
    · simp [hb]
    · by_cases hs : (if goHasPre (goTrimSpace line) "data:"
          then goTrimSpace (goDropN (goTrimSpace line) 5)
          else goTrimSpace line) = "[DONE]"
      · simp [hb, hs]
      · by_cases hp : goHasPre (if goHasPre (goTrimSpace line) "data:"
            then goTrimSpace (goDropN (goTrimSpace line) 5)
            else goTrimSpace line) "\x7b"
        · simp [hb, hs, hp]
        · simp [hb, hs, hp]

/-- Witness for the amended C8: a `data: [DONE]` line ends a concrete
stream immediately, returning the accumulated state and ignoring the
trailing decodable chunk. -/
theorem gemini_sentinel_rule_witness :
    streamLoop geminiOps classifyGeminiLine decWitGem
      (none : Option (String → Option String)) none
      ["data: [DONE]", "\x7bX\x7d"] "pre" "m" "f" = (.ok ⟨"pre", "m", "f"⟩, []) :=
  (gemini_sentinel_rule "data: [DONE]" ["\x7bX\x7d"] decWitGem
    (none : Option (String → Option String)) none "pre" "m" "f").1 (by rfl)

/-! ### Claim C7: Gemini-style endpoint construction -/

/-- Parse oracle for the counterexample: `url.Parse` keeps a duplicated
slash in the path (`url.Parse` does not clean paths). -/
def parseWitBad : String → Option GoURL := fun s =>
  if s = "https://host//v1" then some ⟨"https", "host", "//v1", []⟩ else none

/-- Counterexample to C7 as stated: for the parseable base URL
`https://host//v1` (path `//v1`, which ends in `/v1`), `path.Join` cleans
the duplicated slash, so the endpoint path is not the normalized base path
followed by `/models/<model>:<verb>`. -/
theorem gemini_endpoint_path_cleaned :
    buildGeminiEndpoint parseWitBad "https://host//v1" "m" "k" false
      = .ok ⟨"https", "host", "/v1/models/m:generateContent", [("key", "k")]⟩
    ∧ ("/v1/models/m:generateContent" : String)
        ≠ "//v1" ++ "/models/" ++ "m" ++ ":" ++ "generateContent" :=
  ⟨rfl, by decide⟩

/-- A path segment `path.Clean` keeps verbatim: non-empty, not a dot
segment, and slash-free. -/
def goodSeg (s : List Char) : Bool :=
  decide (s ≠ [] ∧ s ≠ ['.'] ∧ s ≠ ['.', '.'] ∧ '/' ∉ s)

/-- A clean rooted path: a leading slash followed by a slash-joined
non-empty list of good segments. -/
def cleanRooted (p : String) : Prop :=
  ∃ segs, segs ≠ [] ∧ (∀ s ∈ segs, goodSeg s = true)
    ∧ p.data = '/' :: joinSegsChars segs

theorem goodSeg_spec {s : List Char} (h : goodSeg s = true) :
    s ≠ [] ∧ s ≠ ['.'] ∧ s ≠ ['.', '.'] ∧ '/' ∉ s :=
  of_decide_eq_true h

theorem splitSegs_ne_nil (l : List Char) : splitSegs l ≠ [] := by
  cases l with
  | nil => simp [splitSegs]
  | cons c rest =>
    simp only [splitSegs]
    cases splitSegs rest with
    | nil => simp
    | cons s ss => by_cases h : c = '/' <;> simp [h]

theorem splitSegs_slash_cons (l : List Char) :
    splitSegs ('/' :: l) = [] :: splitSegs l := by
  simp only [splitSegs]
  cases hs : splitSegs l with
  | nil => exact absurd hs (splitSegs_ne_nil l)
  | cons s ss => simp

theorem splitSegs_noSlash (s : List Char) (h : '/' ∉ s) : splitSegs s = [s] := by
  induction s with
  | nil => rfl
  | cons c rest ih =>
    have hc : c ≠ '/' := fun hh => h (hh ▸ List.mem_cons_self c rest)
    have hrest : '/' ∉ rest := fun hh => h (List.mem_cons_of_mem _ hh)
    simp only [splitSegs, ih hrest]
    simp [hc]

theorem splitSegs_sep (a b : List Char) (h : '/' ∉ a) :
    splitSegs (a ++ '/' :: b) = a :: splitSegs b := by
  induction a with
  | nil => simpa using splitSegs_slash_cons b
  | cons c rest ih =>
    have hc : c ≠ '/' := fun hh => h (hh ▸ List.mem_cons_self c rest)
    have hrest : '/' ∉ rest := fun hh => h (List.mem_cons_of_mem _ hh)
    rw [List.cons_append, splitSegs, ih hrest]
    simp [hc]

theorem joinSegs_append_one (segs : List (List Char)) (v : List Char)
    (h : segs ≠ []) :
    joinSegsChars (segs ++ [v]) = joinSegsChars segs ++ '/' :: v := by
  induction segs with
  | nil => exact absurd rfl h
  | cons s rest ih =>
    cases rest with
    | nil => simp [joinSegsChars]
    | cons s2 r2 =>
      have h2 := ih (List.cons_ne_nil s2 r2)
      simp only [List.cons_append, joinSegsChars] at h2 ⊢
      simp [h2, List.append_assoc]

theorem splitSegs_join (segs : List (List Char)) (h : segs ≠ [])
    (hs : ∀ s ∈ segs, '/' ∉ s) :
    splitSegs (joinSegsChars segs) = segs := by
  induction segs with
  | nil => exact absurd rfl h
  | cons s rest ih =>
    cases rest with
    | nil => simp [joinSegsChars, splitSegs_noSlash s (hs s (List.mem_cons_self s []))]
    | cons s2 r2 =>
      simp only [joinSegsChars]
      rw [splitSegs_sep s _ (hs s (List.mem_cons_self _ _)),
        ih (by simp) (fun x hx => hs x (List.mem_cons_of_mem _ hx))]

theorem splitSegs_join_append (segs : List (List Char)) (b : List Char)
    (hne : segs ≠ []) (hs : ∀ s ∈ segs, '/' ∉ s) :
    splitSegs (joinSegsChars segs ++ '/' :: b) = segs ++ splitSegs b := by
  induction segs with
  | nil => exact absurd rfl hne
  | cons s rest ih =>
    cases rest with
    | nil => simpa [joinSegsChars] using splitSegs_sep s b (hs s (List.mem_cons_self _ _))
    | cons s2 r2 =>
      simp only [joinSegsChars, List.append_assoc, List.cons_append]
      rw [splitSegs_sep s _ (hs s (List.mem_cons_self _ _)),
        ih (by simp) (fun x hx => hs x (List.mem_cons_of_mem _ hx))]
      simp

theorem cleanStep_good (rooted : Bool) (st : List (List Char)) {s : List Char}
    (hg : goodSeg s = true) : cleanStep rooted st s = st ++ [s] := by
  obtain ⟨h1, h2, h3, _⟩ := goodSeg_spec hg
  simp [cleanStep, h1, h2, h3]

theorem cleanSegs_fold_good (rooted : Bool) :
    ∀ (segs st : List (List Char)),
    (∀ s ∈ segs, s = [] ∨ goodSeg s = true) →
    List.foldl (cleanStep rooted) st segs
      = st ++ segs.filter (fun s => !s.isEmpty) := by
  intro segs
  induction segs with
  | nil => intro st h; simp
  | cons s rest ih =>
    intro st h
    rcases h s (List.mem_cons_self s rest) with he | hg
    · subst he
      simp only [List.foldl]
      rw [show cleanStep rooted st [] = st by simp [cleanStep]]
      rw [ih st (fun x hx => h x (List.mem_cons_of_mem _ hx))]
      simp
    · have hne : ¬s.isEmpty := by
        obtain ⟨h1, _, _, _⟩ := goodSeg_spec hg
        simpa [List.isEmpty_iff] using h1
      simp only [List.foldl]
      rw [cleanStep_good rooted st hg,
        ih (st ++ [s]) (fun x hx => h x (List.mem_cons_of_mem _ hx))]
      simp [List.filter_cons, hne, List.append_assoc]

theorem cleanChars_fixed (segs : List (List Char)) (hne : segs ≠ [])
    (hg : ∀ s ∈ segs, goodSeg s = true) :
    cleanChars ('/' :: joinSegsChars segs) = '/' :: joinSegsChars segs := by
  have hslash : ∀ s ∈ segs, '/' ∉ s := fun s hs => (goodSeg_spec (hg s hs)).2.2.2
  have h1 : splitSegs ('/' :: joinSegsChars segs) = [] :: segs := by
    rw [splitSegs_slash_cons, splitSegs_join segs hne hslash]
  have hfilter : List.filter (fun s => !s.isEmpty) segs = segs :=
    List.filter_eq_self.mpr (fun s hs => by
      simpa [List.isEmpty_iff] using (goodSeg_spec (hg s hs)).1)
  have h2 : cleanSegs (('/' :: joinSegsChars segs).head? = some '/')
      (splitSegs ('/' :: joinSegsChars segs)) = segs := by
    rw [h1]
    unfold cleanSegs
    rw [cleanSegs_fold_good _ ([] :: segs) []
      (by intro s hs
          rcases List.mem_cons.mp hs with he | hm
          · exact Or.inl he
          · exact Or.inr (hg s hm))]
    simp [hfilter]
  unfold cleanChars
  rw [if_neg (by simp)]
  simp only [h2]
  rw [if_neg hne]
  simp

theorem cleanRooted_ne_empty {p : String} (h : cleanRooted p) : p ≠ "" := by
  obtain ⟨segs, _, _, hdata⟩ := h
  intro he
  rw [he] at hdata
  simp at hdata

theorem pathClean_fixed {p : String} (h : cleanRooted p) : pathClean p = p := by
  obtain ⟨segs, hne, hg, hdata⟩ := h
  unfold pathClean
  rw [hdata, cleanChars_fixed segs hne hg]
  exact strExt (by simp [hdata])

theorem slashData : ("/" : String).data = ['/'] := rfl

theorem joinSegs_append_two (segs : List (List Char)) (a b : List Char)
    (h : segs ≠ []) :
    joinSegsChars (segs ++ [a, b])
      = joinSegsChars segs ++ '/' :: (a ++ '/' :: b) := by
  have h1 : segs ++ [a, b] = (segs ++ [a]) ++ [b] := by simp
  rw [h1, joinSegs_append_one _ b (by simp), joinSegs_append_one segs a h]
  simp [List.append_assoc]

theorem pathJoin_clean3 (p m1 m2 : String) (hp : cleanRooted p)
    (h1 : goodSeg m1.data = true) (h2 : goodSeg m2.data = true) :
    pathJoin [p, m1, m2] = p ++ "/" ++ m1 ++ "/" ++ m2 := by
  obtain ⟨segs, hne, hg, hdata⟩ := hp
  have hpne : p ≠ "" := cleanRooted_ne_empty ⟨segs, hne, hg, hdata⟩
  have hjw : joinWithSlash [p, m1, m2] = (p ++ "/") ++ ((m1 ++ "/") ++ m2) := rfl
  have hdata2 : ((p ++ "/") ++ ((m1 ++ "/") ++ m2)).data
      = '/' :: joinSegsChars (segs ++ [m1.data, m2.data]) := by
    rw [joinSegs_append_two segs _ _ hne]
    simp [strDataAppend, hdata, slashData, List.append_assoc]
  have hclean2 : cleanRooted ((p ++ "/") ++ ((m1 ++ "/") ++ m2)) := by
    refine ⟨segs ++ [m1.data, m2.data], by simp, ?_, hdata2⟩
    intro s hs
    rcases List.mem_append.mp hs with hm | hm
    · exact hg s hm
    · rcases List.mem_cons.mp hm with he | hm2
      · rw [he]; exact h1
      · rcases List.mem_cons.mp hm2 with he | hm3
        · rw [he]; exact h2
        · simp at hm3
  calc pathJoin [p, m1, m2]
      = pathClean (joinWithSlash [p, m1, m2]) := by simp [pathJoin, hpne]
    _ = (p ++ "/") ++ ((m1 ++ "/") ++ m2) := by rw [hjw]; exact pathClean_fixed hclean2
    _ = p ++ "/" ++ m1 ++ "/" ++ m2 := strExt (by simp [strDataAppend, List.append_assoc])

theorem cleanChars_of_segs (X : List Char) (allSegs : List (List Char))
    (hsplit : splitSegs X = allSegs)
    (hall : ∀ s ∈ allSegs, s = [] ∨ goodSeg s = true)
    (hres : allSegs.filter (fun s => !s.isEmpty) ≠ []) :
    cleanChars ('/' :: X)
      = '/' :: joinSegsChars (allSegs.filter (fun s => !s.isEmpty)) := by
  have h2 : cleanSegs (('/' :: X).head? = some '/') (splitSegs ('/' :: X))
      = allSegs.filter (fun s => !s.isEmpty) := by
    rw [splitSegs_slash_cons, hsplit]
    unfold cleanSegs
    rw [cleanSegs_fold_good _ ([] :: allSegs) []
      (by intro s hs
          rcases List.mem_cons.mp hs with he | hm
          · exact Or.inl he
          · exact hall s hm)]
    simp [List.filter_cons]
  unfold cleanChars
  rw [if_neg (by simp)]
  simp only [h2]
  rw [if_neg hres]
  simp

theorem pathJoin_v1beta (p : String) (hp : cleanRooted p) :
    pathJoin [p, "/v1beta"] = p ++ "/v1beta"
    ∧ cleanRooted (p ++ "/v1beta") := by
  obtain ⟨segs, hne, hg, hdata⟩ := hp
  have hslash : ∀ s ∈ segs, '/' ∉ s := fun s hs => (goodSeg_spec (hg s hs)).2.2.2
  have hpne : p ≠ "" := cleanRooted_ne_empty ⟨segs, hne, hg, hdata⟩
  have hv1b : goodSeg ("v1beta".data) = true := by decide
  have hv1bs : ("/v1beta" : String).data = '/' :: "v1beta".data := rfl
  have hnewdata : (p ++ "/v1beta").data
      = '/' :: joinSegsChars (segs ++ ["v1beta".data]) := by
    rw [joinSegs_append_one segs _ hne]
    simp [strDataAppend, hdata, hv1bs]
  have hcleannew : cleanRooted (p ++ "/v1beta") := by
    refine ⟨segs ++ ["v1beta".data], by simp, ?_, hnewdata⟩
    intro s hs
    rcases List.mem_append.mp hs with hm | hm
    · exact hg s hm
    · rcases List.mem_cons.mp hm with he | hm2
      · rw [he]; exact hv1b
      · simp at hm2
  refine ⟨?_, hcleannew⟩
  have hjw : joinWithSlash [p, "/v1beta"] = (p ++ "/") ++ "/v1beta" := rfl
  have hdata4 : ((p ++ "/") ++ "/v1beta").data
      = '/' :: (joinSegsChars segs ++ '/' :: ('/' :: "v1beta".data)) := by
    simp [strDataAppend, hdata, slashData, hv1bs, List.append_assoc]
  have hsplit4 : splitSegs (joinSegsChars segs ++ '/' :: ('/' :: "v1beta".data))
      = segs ++ [[], "v1beta".data] := by
    rw [splitSegs_join_append segs _ hne hslash, splitSegs_slash_cons,
      splitSegs_noSlash _ (by decide)]
  have hfilter4 : (segs ++ [[], "v1beta".data]).filter (fun s => !s.isEmpty)
      = segs ++ ["v1beta".data] := by
    rw [List.filter_append]
    rw [List.filter_eq_self.mpr (fun s hs => by
      simpa [List.isEmpty_iff] using (goodSeg_spec (hg s hs)).1)]
    simp [List.filter_cons]
  calc pathJoin [p, "/v1beta"]
      = pathClean ((p ++ "/") ++ "/v1beta") := by simp [pathJoin, hpne, hjw]
    _ = p ++ "/v1beta" := by
        unfold pathClean
        rw [hdata4, cleanChars_of_segs _ _ hsplit4
          (by intro s hs
              rcases List.mem_append.mp hs with hm | hm
              · exact Or.inr (hg s hm)
              · rcases List.mem_cons.mp hm with he | hm2
                · exact Or.inl he
                · rcases List.mem_cons.mp hm2 with he2 | hm3
                  · exact Or.inr (he2 ▸ hv1b)
                  · simp at hm3)
          (by rw [hfilter4]; simp)]
        rw [hfilter4, ← hnewdata]

/-- The endpoint path as the specification words it: the trimmed base path,
normalized to end in `/v1beta` unless it already ends in `/v1` or
`/v1beta`, followed by `/models/<model>:<verb>`. -/
def specGeminiPath (p0 mdl : String) (stream : Bool) : String :=
  (if goHasSuffix p0 "/v1" || goHasSuffix p0 "/v1beta" then p0 else p0 ++ "/v1beta")
    ++ "/models/" ++ mdl ++ ":"
    ++ (if stream then "streamGenerateContent" else "generateContent")

theorem queryGet_set (q : List (String × String)) (k v : String) :
    queryGet (querySet q k v) k = some v := by
  induction q with
  | nil => simp [querySet, queryGet]
  | cons p q' _ih =>
    by_cases hp : p.1 = k
    · simp [querySet, queryGet, List.filter_cons, hp]
    · simp [querySet, queryGet, List.filter_cons, List.find?, hp]

theorem colonData : (":" : String).data = [':'] := rfl

theorem goodSeg_model_verb (mdl verb : String)
    (hm : goodSeg mdl.data = true) (hv : '/' ∉ verb.data) :
    goodSeg (mdl ++ ":" ++ verb).data = true := by
  obtain ⟨h1, _, _, h4⟩ := goodSeg_spec hm
  have hdata : (mdl ++ ":" ++ verb).data = mdl.data ++ ':' :: verb.data := by
    simp [strDataAppend, colonData]
  refine decide_eq_true ?_
  refine ⟨?_, ?_, ?_, ?_⟩
  · rw [hdata]; simp
  · rw [hdata]
    intro he
    have hmem : (':' : Char) ∈ mdl.data ++ ':' :: verb.data := by simp
    rw [he] at hmem
    simp at hmem
  · rw [hdata]
    intro he
    have hmem : (':' : Char) ∈ mdl.data ++ ':' :: verb.data := by simp
    rw [he] at hmem
    rcases List.mem_cons.mp hmem with h | h
    · exact absurd h (by decide)
    · rcases List.mem_cons.mp h with h2 | h2
      · exact absurd h2 (by decide)
      · simp at h2
  · rw [hdata]
    intro hmem
    rcases List.mem_append.mp hmem with h | h
    · exact h4 h
    · rcases List.mem_cons.mp h with h2 | h2
      · exact absurd h2 (by decide)
      · exact hv h2

/-- C7 amended: the Gemini-style endpoint construction fails exactly on an
empty (trimmed) base URL, model, or credential and on an unparseable base
URL; on success the credential is set as the `key` query parameter, the
scheme and host are kept, and — provided the trimmed base path (with one
trailing slash removed) is empty or an already-clean rooted path and the
trimmed model is a clean slash-free path segment — the endpoint path is
exactly the spec formula `specGeminiPath`: the normalized base path plus
`/models/<model>:<verb>` with the verb chosen by the streaming flag.  (For
non-clean base paths `path.Join` first cleans the result, as the
counterexample shows.) -/
theorem gemini_endpoint_rule (parse : String → Option GoURL)
    (baseURL model token : String) (stream : Bool) (u : GoURL) :
    (goTrimSpace baseURL = "" →
      buildGeminiEndpoint parse baseURL model token stream
        = .error "gemini base url is required")
    ∧ (goTrimSpace baseURL ≠ "" → goTrimSpace model = "" →
      buildGeminiEndpoint parse baseURL model token stream
        = .error "gemini model is required")
    ∧ (goTrimSpace baseURL ≠ "" → goTrimSpace model ≠ "" → goTrimSpace token = "" →
      buildGeminiEndpoint parse baseURL model token stream
        = .error "gemini token is required")
    ∧ (goTrimSpace baseURL ≠ "" → goTrimSpace model ≠ "" → goTrimSpace token ≠ "" →
      parse (goTrimSpace baseURL) = none →
      buildGeminiEndpoint parse baseURL model token stream = .error "invalid base url")
    ∧ (goTrimSpace baseURL ≠ "" → goTrimSpace model ≠ "" → goTrimSpace token ≠ "" →
      parse (goTrimSpace baseURL) = some u →
      (goTrimSuffixSlash u.path = "" ∨ cleanRooted (goTrimSuffixSlash u.path)) →
      goodSeg (goTrimSpace model).data = true →
      buildGeminiEndpoint parse baseURL model token stream
        = .ok ⟨u.scheme, u.host,
            specGeminiPath (goTrimSuffixSlash u.path) (goTrimSpace model) stream,
            querySet u.query "key" token⟩
      ∧ queryGet (querySet u.query "key" token) "key" = some token) := by
  refine ⟨fun hb => ?_, fun hb hm => ?_, fun hb hm ht => ?_, fun hb hm ht hp => ?_,
    fun hb hm ht hp hclean hgood => ?_⟩
  · simp [buildGeminiEndpoint, hb]
  · simp [buildGeminiEndpoint, hb, hm]
  · simp [buildGeminiEndpoint, hb, hm, ht]
  · simp [buildGeminiEndpoint, hb, hm, ht, hp]
  · refine ⟨?_, queryGet_set u.query "key" token⟩
    have hverb : '/' ∉ (if stream then "streamGenerateContent"
        else "generateContent" : String).data := by
      cases stream <;> decide
    have hmseg : goodSeg ((goTrimSpace model) ++ ":"
        ++ (if stream then "streamGenerateContent" else "generateContent")).data
        = true := goodSeg_model_verb _ _ hgood hverb
    have hmodels : goodSeg ("models" : String).data = true := by decide
    simp only [buildGeminiEndpoint, hp, if_neg hb, if_neg hm, if_neg ht]
    cases hsfx : (goHasSuffix (goTrimSuffixSlash u.path) "/v1"
        || goHasSuffix (goTrimSuffixSlash u.path) "/v1beta") with
    | true =>
      rcases hclean with hpe | hcr
      · rw [hpe] at hsfx
        exact absurd hsfx (by decide)
      · rw [if_pos rfl]
        rw [pathJoin_clean3 _ "models" _ hcr hmodels hmseg]
        have hpath : goTrimSuffixSlash u.path ++ "/" ++ "models" ++ "/"
            ++ (goTrimSpace model ++ ":"
                ++ (if stream then "streamGenerateContent" else "generateContent"))
            = specGeminiPath (goTrimSuffixSlash u.path) (goTrimSpace model) stream := by
          unfold specGeminiPath
          rw [hsfx, if_pos rfl]
          exact strExt (by simp only [strDataAppend, List.append_assoc]; rfl)
        rw [hpath]
    | false =>
      rw [if_neg (by simp)]
      rcases hclean with hpe | hcr
      · rw [hpe]
        have hjb : pathJoin ["", "/v1beta"] = "/v1beta" := rfl
        rw [hjb]
        have hcrb : cleanRooted "/v1beta" := by
          refine ⟨["v1beta".data], by simp, by decide, by decide⟩
        rw [pathJoin_clean3 _ "models" _ hcrb hmodels hmseg]
        have hpath : ("/v1beta" : String) ++ "/" ++ "models" ++ "/"
            ++ (goTrimSpace model ++ ":"
                ++ (if stream then "streamGenerateContent" else "generateContent"))
            = specGeminiPath "" (goTrimSpace model) stream := by
          unfold specGeminiPath
          rw [if_neg ((by decide) :
            ¬((goHasSuffix "" "/v1" || goHasSuffix "" "/v1beta") = true))]
          exact strExt (by simp only [strDataAppend, List.append_assoc]; rfl)
        rw [hpath]
      · obtain ⟨hjb, hcrb⟩ := pathJoin_v1beta _ hcr
        rw [hjb]
        rw [pathJoin_clean3 _ "models" _ hcrb hmodels hmseg]
        have hpath : goTrimSuffixSlash u.path ++ "/v1beta" ++ "/" ++ "models" ++ "/"
            ++ (goTrimSpace model ++ ":"
                ++ (if stream then "streamGenerateContent" else "generateContent"))
            = specGeminiPath (goTrimSuffixSlash u.path) (goTrimSpace model) stream := by
          unfold specGeminiPath
          rw [hsfx, if_neg ((by decide) : ¬(false = true))]
          exact strExt (by simp only [strDataAppend, List.append_assoc]; rfl)
        rw [hpath]

/-- Parse oracle for the C7 witness: a clean base path `/api` with one
pre-existing query parameter. -/
def parseWitGood : String → Option GoURL := fun s =>
  if s = "https://g.example/api" then
    some ⟨"https", "g.example", "/api", [("alt", "json")]⟩
  else none

/-- Witness for the amended C7 at a concrete configuration: the whitespace
around the model is trimmed, the path is normalized with `/v1beta`, the
streaming verb is used, and the credential rides as the `key` query
parameter. -/
theorem gemini_endpoint_rule_witness :
    buildGeminiEndpoint parseWitGood "https://g.example/api" " m1 " "tok" true
      = .ok ⟨"https", "g.example", "/api/v1beta/models/m1:streamGenerateContent",
          [("alt", "json"), ("key", "tok")]⟩
    ∧ queryGet [("alt", "json"), ("key", "tok")] "key" = some "tok" := by
  have h := (gemini_endpoint_rule parseWitGood "https://g.example/api" " m1 " "tok" true
    ⟨"https", "g.example", "/api", [("alt", "json")]⟩).2.2.2.2
    (by decide) (by decide) (by decide) (by rfl)
    (Or.inr ⟨[['a', 'p', 'i']], by decide, by decide, by decide⟩)
    (by decide)
  exact ⟨h.1.trans (by rfl), h.2⟩
